import Mathlib

/-!
Verification of the forward-mode AD dual-number layer and the Torsten
steady-state system functors of this repository.

The repository ships, under `src/`:
  * `src/test/agrad/fwd/acos_test.cpp` — tests of the `acos` overload on the
    forward-mode dual type `stan::agrad::fvar<T>` (the overload itself lives
    outside the shipped sources, so it is modelled from the spec);
  * `stan/math/torsten/PKModel/functors/SS_system.hpp` — the steady-state
    residual functors `SS_system_dd` and `SS_system_vd` (embedded here
    directly from the source);
  * `test/unit/math/torsten/test_util.hpp` — tolerance-based comparison
    helpers (`test_val`, embedded here directly from the source).

Machine `double` values are idealised as real numbers `ℝ` where only finite
values can occur, and as the four-way type `FP` (finite / ±∞ / NaN) where the
spec's edge-case policy (NaN propagation, signed-infinity derivatives) is at
stake.  The steady-state functors are embedded monomorphically at the base
scalar (`double` ↦ `ℚ`), which keeps every definition executable; the C++
template is uniform in its scalar parameters, and none of the claims about
the functors depends on the richer instantiations.
-/

open Classical

noncomputable section

/-- The forward-mode dual-number type.
Modelled from the spec: `Dual<T>` "wraps a value of type `T` and a derivative
(tangent) of type `T`"; field names follow `stan::agrad::fvar` (`val_`, `d_`)
as used throughout `src/test/agrad/fwd/acos_test.cpp`. -/
@[ext]
structure fvar (α : Type) where
  val_ : α
  d_ : α
  deriving DecidableEq, Repr

namespace fvar

/-- Modelled from the spec: sum rule — `val` is the primal sum, `tangent`
the sum of tangents (§4.1 "sum rule"). -/
instance (α : Type) [Add α] : Add (fvar α) :=
  ⟨fun x y => ⟨x.val_ + y.val_, x.d_ + y.d_⟩⟩

/-- Modelled from the spec: product rule (§4.1 "product rule"). -/
instance (α : Type) [Add α] [Mul α] : Mul (fvar α) :=
  ⟨fun x y => ⟨x.val_ * y.val_, x.d_ * y.val_ + x.val_ * y.d_⟩⟩

/-- Modelled from the spec: negation distributes over value and tangent. -/
instance (α : Type) [Neg α] : Neg (fvar α) :=
  ⟨fun x => ⟨-x.val_, -x.d_⟩⟩

/-- Modelled from the spec: difference rule (§4.1 "sum rule" with negation). -/
instance (α : Type) [Sub α] : Sub (fvar α) :=
  ⟨fun x y => ⟨x.val_ - y.val_, x.d_ - y.d_⟩⟩

/-- Modelled from the spec: quotient rule (§4.1 "quotient rule"). -/
instance (α : Type) [Add α] [Mul α] [Sub α] [Div α] : Div (fvar α) :=
  ⟨fun x y => ⟨x.val_ / y.val_,
               (x.d_ * y.val_ - x.val_ * y.d_) / (y.val_ * y.val_)⟩⟩

/-- Modelled from the spec: a constant has tangent 0 ("default tangent = 0,
meaning not varying"). -/
def const (α : Type) [Zero α] (c : α) : fvar α := ⟨c, 0⟩

instance (α : Type) [Zero α] [One α] : One (fvar α) := ⟨⟨1, 0⟩⟩

instance (α : Type) [Zero α] : Zero (fvar α) := ⟨⟨0, 0⟩⟩

@[simp] theorem one_val (α : Type) [Zero α] [One α] : (1 : fvar α).val_ = 1 := rfl
@[simp] theorem one_d (α : Type) [Zero α] [One α] : (1 : fvar α).d_ = 0 := rfl
@[simp] theorem zero_val (α : Type) [Zero α] : (0 : fvar α).val_ = 0 := rfl
@[simp] theorem zero_d (α : Type) [Zero α] : (0 : fvar α).d_ = 0 := rfl

@[simp] theorem add_val {α : Type} [Add α] (x y : fvar α) :
    (x + y).val_ = x.val_ + y.val_ := rfl
@[simp] theorem add_d {α : Type} [Add α] (x y : fvar α) :
    (x + y).d_ = x.d_ + y.d_ := rfl
@[simp] theorem mul_val {α : Type} [Add α] [Mul α] (x y : fvar α) :
    (x * y).val_ = x.val_ * y.val_ := rfl
@[simp] theorem mul_d {α : Type} [Add α] [Mul α] (x y : fvar α) :
    (x * y).d_ = x.d_ * y.val_ + x.val_ * y.d_ := rfl
@[simp] theorem sub_val {α : Type} [Sub α] (x y : fvar α) :
    (x - y).val_ = x.val_ - y.val_ := rfl
@[simp] theorem sub_d {α : Type} [Sub α] (x y : fvar α) :
    (x - y).d_ = x.d_ - y.d_ := rfl
@[simp] theorem neg_val {α : Type} [Neg α] (x : fvar α) :
    (-x).val_ = -x.val_ := rfl
@[simp] theorem neg_d {α : Type} [Neg α] (x : fvar α) :
    (-x).d_ = -x.d_ := rfl
@[simp] theorem div_val {α : Type} [Add α] [Mul α] [Sub α] [Div α] (x y : fvar α) :
    (x / y).val_ = x.val_ / y.val_ := rfl
@[simp] theorem div_d {α : Type} [Add α] [Mul α] [Sub α] [Div α] (x y : fvar α) :
    (x / y).d_ = (x.d_ * y.val_ - x.val_ * y.d_) / (y.val_ * y.val_) := rfl

end fvar

/-- Modelled from the spec: the `acos` overload on `Dual<double>`, which is not
among the shipped sources (only its test `src/test/agrad/fwd/acos_test.cpp`).
Per §4.2: `g(Dual(v, d)) = Dual(g(v), g'(v) * d)` with `g = acos`,
`g'(v) = -1/sqrt(1 - v^2)`; tangent written `d * g'(v)`. -/
def facos1 (x : fvar ℝ) : fvar ℝ :=
  ⟨Real.arccos x.val_, x.d_ * (-(1 / Real.sqrt (1 - x.val_ * x.val_)))⟩

/-- Modelled from the spec: the `sqrt` overload on `Dual<double>` (needed by
the recursive second-order `acos`, §4.2 "the overload must apply the chain
rule twice"): value rule `sqrt(v)`, derivative rule `d * 1/(2*sqrt(v))`. -/
def fsqrt1 (x : fvar ℝ) : fvar ℝ :=
  ⟨Real.sqrt x.val_, x.d_ / (2 * Real.sqrt x.val_)⟩

/-- Modelled from the spec: the `acos` overload at the second-order type
`Dual<Dual<double>>`; the same template as `facos1` with every operation taken
at the inner dual type (`fsqrt1`, dual product, dual quotient). -/
def facos2 (x : fvar (fvar ℝ)) : fvar (fvar ℝ) :=
  ⟨facos1 x.val_, x.d_ * (-(1 / fsqrt1 (1 - x.val_ * x.val_)))⟩

/-- C1: for every value `v` strictly inside `(-1,1)` and every tangent seed
`d`, the dual-number `acos` returns value `acos v` and tangent
`d * (-1/sqrt(1 - v^2))`, which is `d` times the analytic derivative of
`acos` at `v`; composed through arithmetic at `v = 0.5`, seed 1, the
expression `-3*acos(x) + 5*x` has value `-3*acos(0.5) + 2.5` and tangent
`-3*(-1/sqrt(0.75)) + 5`. -/
theorem facos1_val_tangent (v d : ℝ) (h₁ : -1 < v) (h₂ : v < 1) :
    (facos1 ⟨v, d⟩).val_ = Real.arccos v ∧
    (facos1 ⟨v, d⟩).d_ = d * (-(1 / Real.sqrt (1 - v ^ 2))) ∧
    HasDerivAt Real.arccos (-(1 / Real.sqrt (1 - v ^ 2))) v ∧
    (fvar.const ℝ (-3) * facos1 ⟨1/2, 1⟩ + fvar.const ℝ 5 * ⟨1/2, 1⟩).val_ =
      -3 * Real.arccos (1/2) + 5/2 ∧
    (fvar.const ℝ (-3) * facos1 ⟨1/2, 1⟩ + fvar.const ℝ 5 * ⟨1/2, 1⟩).d_ =
      -3 * (-(1 / Real.sqrt (3/4))) + 5 := by
  refine ⟨rfl, by simp only [facos1]; rw [sq], ?_, ?_, ?_⟩
  · exact Real.hasDerivAt_arccos (by linarith) (by linarith)
  · simp [facos1, fvar.const]
    ring
  · simp [facos1, fvar.const]
    norm_num

/-- Witness for C1 at `v = 1/2`, `d = 1`. -/
theorem facos1_val_tangent_witness :
    (facos1 ⟨1/2, 1⟩).val_ = Real.arccos (1/2) ∧
    (facos1 ⟨1/2, 1⟩).d_ = 1 * (-(1 / Real.sqrt (1 - (1/2 : ℝ) ^ 2))) :=
  ⟨(facos1_val_tangent (1/2) 1 (by norm_num) (by norm_num)).1,
   (facos1_val_tangent (1/2) 1 (by norm_num) (by norm_num)).2.1⟩

/-!
The reverse-mode scalar `stan::agrad::var` is an external capability ("an
opaque differentiable scalar that supports ... on-demand gradient
extraction", spec §2).  Modelled from the spec: a `var` expression built from
one independent variable `x₀` is interpreted as the pair of its value and its
sensitivity `∂(expression)/∂x₀`, i.e. as an inner dual number; the
reverse-mode `grad` call then reads off the sensitivity component (`.d_`).
Under this interpretation `fvar<var>` is `fvar (fvar ℝ)` with the independent
variable seeded `⟨x₀, 1⟩` and constants seeded `⟨c, 0⟩`, and `acos` on
`fvar<var>` is `facos2`.
-/

/-- C2: `acos` on a forward-over-reverse dual at value `0.5` with forward
tangent seed `d`: the gradient pulled off the result's value is the first
derivative `-1/sqrt(1 - 0.5^2)`; the gradient pulled off the forward tangent
is `d` times the second derivative `-0.5/(1 - 0.5^2)^(3/2)` (written
`-(1/2) / (sqrt(3/4) * (3/4))`); and the first derivative obtained from the
value equals the first derivative obtained from the tangent at seed 1. -/
theorem facos2_fwd_over_rev (d : ℝ) :
    (facos2 ⟨⟨1/2, 1⟩, ⟨d, 0⟩⟩).val_.d_ = -(1 / Real.sqrt (1 - (1/2 : ℝ) ^ 2)) ∧
    (facos2 ⟨⟨1/2, 1⟩, ⟨d, 0⟩⟩).d_.d_ = d * (-(1/2) / (Real.sqrt (3/4) * (3/4))) ∧
    (facos2 ⟨⟨1/2, 1⟩, ⟨d, 0⟩⟩).val_.d_ = (facos2 ⟨⟨1/2, 1⟩, ⟨1, 0⟩⟩).d_.val_ := by
  have hms : Real.sqrt (3/4) * Real.sqrt (3/4) = 3/4 := Real.mul_self_sqrt (by norm_num)
  have h34 : (1 : ℝ) - 1 / 2 * (1 / 2) = 3/4 := by norm_num
  refine ⟨?_, ?_, ?_⟩
  · simp [facos2, facos1]
    norm_num
  · simp only [facos2, facos1, fsqrt1, fvar.mul_d, fvar.mul_val, fvar.div_d, fvar.div_val,
      fvar.sub_d, fvar.sub_val, fvar.neg_d, fvar.neg_val, fvar.one_val, fvar.one_d]
    rw [h34, hms]
    field_simp
    exact Or.inl (by ring)
  · simp [facos2, facos1, fsqrt1]

/-- C3: a `Dual<Dual<double>>` input to `acos` seeded in only one of its two
tangent directions produces a result whose components in the unseeded
direction are exactly 0: an input varying only inside the `val_` slot
(`x.d_ = 0`) gives `(acos x).d_ = 0`, and an input varying only in the outer
slot (`x.val_.d_ = 0`, `x.d_.d_ = 0`) gives `(acos x).val_.d_ = 0` and
`(acos x).d_.d_ = 0`. -/
theorem facos2_unseeded_direction_exact_zero :
    (∀ inner : fvar ℝ, (facos2 ⟨inner, 0⟩).d_ = 0) ∧
    (∀ v s : ℝ, (facos2 ⟨⟨v, 0⟩, ⟨s, 0⟩⟩).val_.d_ = 0 ∧
                (facos2 ⟨⟨v, 0⟩, ⟨s, 0⟩⟩).d_.d_ = 0) := by
  constructor
  · intro inner
    ext <;> simp [facos2]
  · intro v s
    constructor <;> simp [facos2, facos1, fsqrt1]

/-!
For the boundary and out-of-domain claims the underlying machine scalar must
carry infinities and NaN, so `double` is modelled as `FP`: a finite real
number, a signed infinity, or NaN.  The operation rules below are modelled
from the spec's edge-case policy (§4.2, §7: domain violations propagate as
NaN, the boundary derivative is a signed infinity `-1/0 → -∞`) together with
the IEEE behaviour of the underlying `std::acos`/`std::sqrt`/arithmetic the
spec appeals to.  Zero is unsigned; division of a nonzero finite number by
zero yields the infinity carrying the dividend's sign, which matches IEEE
division by positive zero — the only zero denominator arising in the claims
(`sqrt(1 - 1^2)`). -/
inductive FP where
  | num (x : ℝ)
  | posInf
  | negInf
  | nan

namespace FP

/-- Modelled from the spec: IEEE addition on the underlying double. -/
def add : FP → FP → FP
  | nan, _ => nan
  | _, nan => nan
  | num a, num b => num (a + b)
  | num _, posInf => posInf
  | num _, negInf => negInf
  | posInf, num _ => posInf
  | negInf, num _ => negInf
  | posInf, posInf => posInf
  | negInf, negInf => negInf
  | posInf, negInf => nan
  | negInf, posInf => nan

/-- Modelled from the spec: IEEE subtraction on the underlying double. -/
def sub : FP → FP → FP
  | nan, _ => nan
  | _, nan => nan
  | num a, num b => num (a - b)
  | num _, posInf => negInf
  | num _, negInf => posInf
  | posInf, num _ => posInf
  | negInf, num _ => negInf
  | posInf, posInf => nan
  | negInf, negInf => nan
  | posInf, negInf => posInf
  | negInf, posInf => negInf

/-- Modelled from the spec: IEEE multiplication on the underlying double;
`0 * ±∞` is NaN, otherwise infinities obey the sign rule. -/
def mul : FP → FP → FP
  | nan, _ => nan
  | _, nan => nan
  | num a, num b => num (a * b)
  | num a, posInf => if a > 0 then posInf else if a < 0 then negInf else nan
  | num a, negInf => if a > 0 then negInf else if a < 0 then posInf else nan
  | posInf, num b => if b > 0 then posInf else if b < 0 then negInf else nan
  | negInf, num b => if b > 0 then negInf else if b < 0 then posInf else nan
  | posInf, posInf => posInf
  | negInf, negInf => posInf
  | posInf, negInf => negInf
  | negInf, posInf => negInf

/-- Modelled from the spec: IEEE negation on the underlying double. -/
def neg : FP → FP
  | nan => nan
  | num a => num (-a)
  | posInf => negInf
  | negInf => posInf

/-- Modelled from the spec: IEEE division on the underlying double; a nonzero
finite dividend over zero gives the infinity of the dividend's sign (`-1/0 →
-∞`, spec §4.2), `0/0` gives NaN. -/
def div : FP → FP → FP
  | nan, _ => nan
  | _, nan => nan
  | num a, num b =>
      if b = 0 then (if a > 0 then posInf else if a < 0 then negInf else nan)
      else num (a / b)
  | num _, posInf => num 0
  | num _, negInf => num 0
  | posInf, num b => if b < 0 then negInf else posInf
  | negInf, num b => if b < 0 then posInf else negInf
  | posInf, posInf => nan
  | posInf, negInf => nan
  | negInf, posInf => nan
  | negInf, negInf => nan

/-- Modelled from the spec: the underlying scalar `sqrt`; a negative argument
is a "domain violation" propagating NaN (§4.2). -/
def sqrt : FP → FP
  | nan => nan
  | num a => if a < 0 then nan else num (Real.sqrt a)
  | posInf => posInf
  | negInf => nan

/-- Modelled from the spec: the underlying scalar `acos`; arguments outside
`[-1, 1]` are a "domain violation" propagating NaN (§4.2). -/
def acos : FP → FP
  | nan => nan
  | num a => if -1 ≤ a ∧ a ≤ 1 then num (Real.arccos a) else nan
  | posInf => nan
  | negInf => nan

instance : Add FP := ⟨add⟩
instance : Sub FP := ⟨sub⟩
instance : Mul FP := ⟨mul⟩
instance : Neg FP := ⟨neg⟩
instance : Div FP := ⟨div⟩
instance : One FP := ⟨num 1⟩
instance : Zero FP := ⟨num 0⟩

end FP

/-- Modelled from the spec: the `acos` overload on `Dual<double>` at the `FP`
scalar — the same template as `facos1`, §4.2: value `acos(v)`, tangent
`d * (-1/sqrt(1 - v^2))`, with the edge cases carried by the `FP` ops. -/
def facosFP (x : fvar FP) : fvar FP :=
  ⟨FP.acos x.val_, x.d_ * (-(1 / FP.sqrt (1 - x.val_ * x.val_)))⟩

/-- C4: `acos` of a dual number with value exactly 1 and tangent seed 1
returns value `acos(1) = 0` and tangent negative infinity; the operation is
total (no exception). -/
theorem facosFP_at_one :
    facosFP ⟨FP.num 1, FP.num 1⟩ = ⟨FP.num 0, FP.negInf⟩ := by
  show fvar.mk (FP.acos (FP.num 1))
      (FP.mul (FP.num 1) (FP.neg (FP.div (FP.num 1)
        (FP.sqrt (FP.sub (FP.num 1) (FP.mul (FP.num 1) (FP.num 1))))))) = _
  simp [FP.acos, FP.mul, FP.sub, FP.sqrt, FP.div, FP.neg, Real.arccos_one]

/-- C5: `acos` of a dual number whose value is 3.4 (strictly outside
`[-1, 1]`) returns NaN in both value and tangent, for every tangent seed;
the operation is total — NaN is a valid output, not a failure signal. -/
theorem facosFP_outside_domain (d : FP) :
    facosFP ⟨FP.num 3.4, d⟩ = ⟨FP.nan, FP.nan⟩ := by
  have h1 : FP.acos (FP.num 3.4) = FP.nan := by
    simp [FP.acos]
    norm_num
  have hs : FP.sqrt (FP.sub (FP.num 1) (FP.mul (FP.num 3.4) (FP.num 3.4))) = FP.nan := by
    show FP.sqrt (FP.num (1 - 3.4 * 3.4)) = FP.nan
    simp [FP.sqrt]
    norm_num
  have hmul : FP.mul d FP.nan = FP.nan := by cases d <;> rfl
  show fvar.mk (FP.acos (FP.num 3.4))
      (FP.mul d (FP.neg (FP.div (FP.num 1)
        (FP.sqrt (FP.sub (FP.num 1) (FP.mul (FP.num 3.4) (FP.num 3.4))))))) = _
  rw [hs]
  show fvar.mk (FP.acos (FP.num 3.4)) (FP.mul d FP.nan) = _
  rw [hmul, h1]

end

/-!
Embedding of `src/stan/math/torsten/PKModel/functors/SS_system.hpp`.

The two functors are embedded at the base scalar instantiation
(`T0 = T1 = double`, idealised as `ℚ`, which keeps every definition
executable); the C++ template body is uniform in its scalar parameters.
External collaborators are abstracted as function arguments: the
`integrator_structure` member is a function field, the ODE right-hand side
`F` is a function field, and `check_mti` (declared in `check_mti.hpp`, not
among the shipped sources) is passed as an argument.  A thrown
`std::invalid_argument` and an out-of-bounds vector access (undefined
behaviour in C++) are modelled as `Except.error` outcomes, so "no residual
vector is returned" is visible in the type.
-/

/-- Error outcomes of one functor evaluation: `invalidArg` carries the five
string arguments of the `stan::math::invalid_argument` call verbatim;
`oob` marks an out-of-bounds vector access (undefined behaviour in C++). -/
inductive SSError where
  | oob : SSError
  | invalidArg (fn nm yv msg1 msg2 : String) : SSError
  deriving DecidableEq, Repr

/-- C++ `std::vector`/Eigen read access `v[i]` with an `int` index; an index
outside `[0, size)` is undefined behaviour in the source, modelled as `oob`. -/
def vget (v : List ℚ) (i : Int) : Except SSError ℚ :=
  if 0 ≤ i ∧ i.toNat < v.length then .ok (v.getD i.toNat 0) else .error .oob

/-- The bolus-dose state update `if (cmt_ >= 0) x0[cmt_ - 1] += amt;`,
identical at SS_system.hpp lines 77 (`SS_system_dd`) and 198
(`SS_system_vd`): guarded only by `cmt_ >= 0`, it adds `amt` in place at
index `cmt_ - 1`; the write is undefined behaviour when `cmt_ - 1` falls
outside the vector, modelled as `oob`. -/
def bolusUpdate (cmt : Int) (x0 : List ℚ) (amt : ℚ) : Except SSError (List ℚ) :=
  if 0 ≤ cmt then
    if 0 ≤ cmt - 1 ∧ (cmt - 1).toNat < x0.length then
      .ok (x0.set (cmt - 1).toNat (x0.getD (cmt - 1).toNat 0 + amt))
    else .error .oob
  else .ok x0

/-- C++ `[0]` on the integrator's returned vector of states; an empty result
would be undefined behaviour, modelled as `oob`. -/
def first : List (List ℚ) → Except SSError (List ℚ)
  | [] => .error .oob
  | s :: _ => .ok s

/-- The residual loop `for (i < result.size()) result(i) = x(i) - pred[i]`
(`result` sized like `x`); reading past the end of `pred` is undefined
behaviour, modelled as `oob`. -/
def residualOf (x pred : List ℚ) : Except SSError (List ℚ) :=
  if x.length ≤ pred.length then .ok (List.zipWith (fun a b => a - b) x pred)
  else .error .oob

/-- The ODE right-hand-side functor type `F`, with the argument list used at
SS_system.hpp lines 126 and 214: `(t, x, parms, dat, dat_int, msgs)`. -/
abbrev OdeF := ℚ → List ℚ → List ℚ → List ℚ → List Int → Unit → List ℚ

/-- The `integrator_structure` interface (external collaborator, spec §6):
`(system functor, initial state, start time, output times, parameters,
real data, integer data) → one state vector per requested time`. -/
abbrev Integrator :=
  OdeF → List ℚ → ℚ → List ℚ → List ℚ → List ℚ → List Int → List (List ℚ)

/-- The signature of `check_mti(amt, delta, ii, function)` (declared in
`check_mti.hpp`, not among the shipped sources): it either passes or throws. -/
abbrev CheckMti := ℚ → ℚ → ℚ → String → Except SSError Unit

/-- `SS_system_dd` (SS_system.hpp lines 19-33): both `amt` and `rate` fixed. -/
structure SS_system_dd where
  f_ : OdeF
  ii_ : ℚ
  cmt_ : Int
  integrator_ : Integrator

/-- `SS_system_dd::operator()` (SS_system.hpp lines 39-132).  `dat` contains
the rates in each compartment followed by the adjusted amount. -/
def SS_system_dd.apply (s : SS_system_dd) (check_mti : CheckMti)
    (x y dat : List ℚ) (dat_int : List Int) : Except SSError (List ℚ) := do
  let t0 : ℚ := 0
  let x0 := x
  let amt ← vget dat ((dat.length : Int) - 1)
  let rate ← if 0 ≤ s.cmt_ - 1 then vget dat (s.cmt_ - 1) else pure 0
  -- real data passed to the integrator should not have amt in it (line 71)
  let dat_ode := dat.dropLast
  if rate = 0 then  -- bolus dose
    let x0' ← bolusUpdate s.cmt_ x0 amt
    let pred ← first (s.integrator_ s.f_ x0' t0 [s.ii_] y dat_ode dat_int)
    residualOf x pred
  else if 0 < s.ii_ then  -- multiple truncated infusions
    let delta := amt / rate
    let _ ← check_mti amt delta s.ii_ "Steady State Event"
    let x1 ← first (s.integrator_ s.f_ x t0 [delta] y dat_ode dat_int)
    let rate_v := List.replicate dat.length (0 : ℚ)
    let pred ← first (s.integrator_ s.f_ x1 t0 [s.ii_ - delta] y dat_ode dat_int)
    residualOf x pred
  else  -- constant infusion
    .ok (s.f_ 0 x y dat_ode dat_int ())

/-- `SS_system_vd` (SS_system.hpp lines 143-156): `amt` is a random variable
(the last element of `y`), `rate` fixed (`dat` stores the rate). -/
structure SS_system_vd where
  f_ : OdeF
  ii_ : ℚ
  cmt_ : Int
  integrator_ : Integrator

/-- `SS_system_vd::operator()` (SS_system.hpp lines 165-220). -/
def SS_system_vd.apply (s : SS_system_vd)
    (x y dat : List ℚ) (dat_int : List Int) : Except SSError (List ℚ) := do
  let t0 : ℚ := 0
  let rate_v := dat  -- lines 185-186: a copy of dat, unused afterwards
  let x0 := x
  let amt ← vget y ((y.length : Int) - 1)
  let rate ← if 0 ≤ s.cmt_ - 1 then vget dat (s.cmt_ - 1) else pure 0
  let parms := y.dropLast
  if rate = 0 then  -- bolus dose
    let x0' ← bolusUpdate s.cmt_ x0 amt
    let pred ← first (s.integrator_ s.f_ x0' t0 [s.ii_] parms dat dat_int)
    residualOf x pred
  else if 0 < s.ii_ then  -- multiple truncated infusions
    .error (.invalidArg "Steady State Event"
      "Current version does not handle the case of" ""
      " multiple truncated infusions "
      "(i.e ii > 0 and rate > 0) when F * amt is a parameter.")
  else  -- constant infusion
    .ok (s.f_ 0 x parms dat dat_int ())

theorem except_ok_bind {α β : Type} (a : α) (g : α → Except SSError β) :
    ((Except.ok a : Except SSError α) >>= g) = g a := rfl

theorem except_pure_bind {α β : Type} (a : α) (g : α → Except SSError β) :
    ((pure a : Except SSError α) >>= g) = g a := rfl

theorem except_error_bind {α β : Type} (e : SSError) (g : α → Except SSError β) :
    ((Except.error e : Except SSError α) >>= g) = Except.error e := rfl

theorem vget_ok (v : List ℚ) (i : Int) (h1 : 0 ≤ i) (h2 : i.toNat < v.length) :
    vget v i = .ok (v.getD i.toNat 0) := by
  simp [vget, h1, h2]

theorem zipWith_sub_self (x : List ℚ) :
    List.zipWith (fun a b => a - b) x x = List.replicate x.length 0 := by
  induction x with
  | nil => rfl
  | cons a t ih => simp [List.replicate, ih]

/-- C6: every call to `SS_system_vd::operator()` with a nonzero rate at the
dosing compartment (`cmt ≥ 1`, `dat[cmt-1] ≠ 0`) and `ii > 0` ends in the
fatal `invalid_argument` error whose message names the unsupported multiple
truncated infusions combination; no residual vector is returned. -/
theorem SS_system_vd_truncated_infusion_error
    (f : OdeF) (ii : ℚ) (cmt : Int) (intg : Integrator)
    (x y dat : List ℚ) (dat_int : List Int)
    (hy : y ≠ [])
    (hc : 1 ≤ cmt) (hcu : (cmt - 1).toNat < dat.length)
    (hrate : dat.getD (cmt - 1).toNat 0 ≠ 0)
    (hii : 0 < ii) :
    SS_system_vd.apply ⟨f, ii, cmt, intg⟩ x y dat dat_int =
      .error (.invalidArg "Steady State Event"
        "Current version does not handle the case of" ""
        " multiple truncated infusions "
        "(i.e ii > 0 and rate > 0) when F * amt is a parameter.") := by
  have hylen : (0 : Int) ≤ (y.length : Int) - 1 := by
    cases y with
    | nil => exact absurd rfl hy
    | cons a t => simp
  have h1 : vget y ((y.length : Int) - 1) =
      .ok (y.getD ((y.length : Int) - 1).toNat 0) :=
    vget_ok _ _ hylen (by omega)
  have h2 : vget dat (cmt - 1) = .ok (dat.getD (cmt - 1).toNat 0) :=
    vget_ok _ _ (by omega) hcu
  unfold SS_system_vd.apply
  rw [h1, except_ok_bind, if_pos (by omega : (0:Int) ≤ cmt - 1), h2,
    except_ok_bind]
  simp only [if_neg hrate, if_pos hii]

/-- Witness for C6: a concrete truncated-infusion call fails fatally. -/
theorem SS_system_vd_truncated_infusion_error_witness :
    SS_system_vd.apply
      ⟨fun _ _ _ _ _ _ => [], 2, 1, fun _ _ _ _ _ _ _ => []⟩
      [1] [3] [1, 5] [] =
      .error (.invalidArg "Steady State Event"
        "Current version does not handle the case of" ""
        " multiple truncated infusions "
        "(i.e ii > 0 and rate > 0) when F * amt is a parameter.") :=
  SS_system_vd_truncated_infusion_error _ 2 1 _ [1] [3] [1, 5] []
    (by decide) (by decide) (by decide) (by decide) (by decide)

/-- C7: a call to `SS_system_dd::operator()` with zero rate at the dosing
compartment (`cmt ≥ 1`, `dat[cmt-1] = 0`, the bolus regime) returns the
residual `x - pred`, where `pred` is the integrator's state at time `ii`
started from `x` with `amt` (the last element of `dat`) added to component
`cmt - 1`; in particular the residual is exactly the zero vector when `x` is
that fixed point. -/
theorem SS_system_dd_bolus_residual
    (f : OdeF) (ii : ℚ) (cmt : Int) (intg : Integrator) (cm : CheckMti)
    (x y dat : List ℚ) (dat_int : List Int) (p : List ℚ)
    (hd : dat ≠ [])
    (hc : 1 ≤ cmt) (hcu : (cmt - 1).toNat < dat.length)
    (hrate : dat.getD (cmt - 1).toNat 0 = 0)
    (hx : (cmt - 1).toNat < x.length)
    (hp : first (intg f
            (x.set (cmt - 1).toNat
              (x.getD (cmt - 1).toNat 0 + dat.getD (dat.length - 1) 0))
            0 [ii] y dat.dropLast dat_int) = .ok p)
    (hlen : x.length ≤ p.length) :
    SS_system_dd.apply ⟨f, ii, cmt, intg⟩ cm x y dat dat_int =
      .ok (List.zipWith (fun a b => a - b) x p) ∧
    (x = p → SS_system_dd.apply ⟨f, ii, cmt, intg⟩ cm x y dat dat_int =
      .ok (List.replicate x.length 0)) := by
  have hdlen : (0 : Int) ≤ (dat.length : Int) - 1 := by
    cases dat with
    | nil => exact absurd rfl hd
    | cons a t => simp
  have hidx : ((dat.length : Int) - 1).toNat = dat.length - 1 := by omega
  have h1 : vget dat ((dat.length : Int) - 1) =
      .ok (dat.getD (dat.length - 1) 0) := by
    rw [vget_ok _ _ hdlen (by omega), hidx]
  have h2 : vget dat (cmt - 1) = .ok (dat.getD (cmt - 1).toNat 0) :=
    vget_ok _ _ (by omega) hcu
  have h3 : bolusUpdate cmt x (dat.getD (dat.length - 1) 0) =
      .ok (x.set (cmt - 1).toNat
        (x.getD (cmt - 1).toNat 0 + dat.getD (dat.length - 1) 0)) := by
    rw [bolusUpdate, if_pos (by omega : (0:Int) ≤ cmt),
      if_pos (⟨by omega, hx⟩ : 0 ≤ cmt - 1 ∧ (cmt - 1).toNat < x.length)]
  have main : SS_system_dd.apply ⟨f, ii, cmt, intg⟩ cm x y dat dat_int =
      .ok (List.zipWith (fun a b => a - b) x p) := by
    unfold SS_system_dd.apply
    rw [h1, except_ok_bind, if_pos (by omega : (0:Int) ≤ cmt - 1), h2,
      except_ok_bind]
    simp only [if_pos hrate]
    rw [h3, except_ok_bind, hp, except_ok_bind, residualOf, if_pos hlen]
  refine ⟨main, fun hfix => ?_⟩
  rw [main, ← hfix, zipWith_sub_self x]

/-- Witness for C7 at a concrete fixed point: `x = [3, 4]`, dose in
compartment 1, integrator constantly returning `[3, 4]`; the residual is the
zero vector. -/
theorem SS_system_dd_bolus_residual_witness :
    SS_system_dd.apply
      ⟨fun _ _ _ _ _ _ => [], 1, 1, fun _ _ _ _ _ _ _ => [[3, 4]]⟩
      (fun _ _ _ _ => .ok ()) [3, 4] [] [0, 7] [] =
      .ok (List.replicate 2 0) :=
  (SS_system_dd_bolus_residual (fun _ _ _ _ _ _ => []) 1 1
    (fun _ _ _ _ _ _ _ => [[3, 4]]) (fun _ _ _ _ => .ok ())
    [3, 4] [] [0, 7] [] [3, 4]
    (by decide) (by decide) (by decide) (by decide) (by decide)
    rfl (by decide)).2 rfl

/-- C9: the bolus-dose update shared by both functors adds the dose at index
`cmt - 1` under the guard `cmt >= 0`.  Under the precondition
`1 ≤ cmt ≤ |x0|` the write is in bounds; a call with `cmt = 0` passes the
guard yet addresses index `-1`, so in both functors it reaches the
out-of-bounds access (here with `cmt = 0` the rate lookup is skipped, `rate`
is 0, and the bolus branch is always taken). -/
theorem bolus_guard_indexing :
    (∀ (cmt : Int) (x0 : List ℚ) (amt : ℚ), 1 ≤ cmt → cmt ≤ (x0.length : Int) →
        bolusUpdate cmt x0 amt =
          .ok (x0.set (cmt - 1).toNat (x0.getD (cmt - 1).toNat 0 + amt))) ∧
    (∀ (x0 : List ℚ) (amt : ℚ), bolusUpdate 0 x0 amt = .error .oob) ∧
    (∀ (f : OdeF) (ii : ℚ) (intg : Integrator) (cm : CheckMti)
        (x y dat : List ℚ) (dat_int : List Int), dat ≠ [] →
        SS_system_dd.apply ⟨f, ii, 0, intg⟩ cm x y dat dat_int = .error .oob) ∧
    (∀ (f : OdeF) (ii : ℚ) (intg : Integrator)
        (x y dat : List ℚ) (dat_int : List Int), y ≠ [] →
        SS_system_vd.apply ⟨f, ii, 0, intg⟩ x y dat dat_int = .error .oob) := by
  have hup : ∀ (x0 : List ℚ) (amt : ℚ), bolusUpdate 0 x0 amt = .error .oob := by
    intro x0 amt
    rw [bolusUpdate, if_pos (by omega : (0:Int) ≤ 0),
      if_neg (by omega : ¬((0:Int) ≤ 0 - 1 ∧ ((0:Int) - 1).toNat < x0.length))]
  refine ⟨?_, hup, ?_, ?_⟩
  · intro cmt x0 amt h1 h2
    rw [bolusUpdate, if_pos (by omega : (0:Int) ≤ cmt),
      if_pos (⟨by omega, by omega⟩ : 0 ≤ cmt - 1 ∧ (cmt - 1).toNat < x0.length)]
  · intro f ii intg cm x y dat dat_int hd
    have hdlen : (0 : Int) ≤ (dat.length : Int) - 1 := by
      cases dat with
      | nil => exact absurd rfl hd
      | cons a t => simp
    have h1 : vget dat ((dat.length : Int) - 1) =
        .ok (dat.getD ((dat.length : Int) - 1).toNat 0) :=
      vget_ok _ _ hdlen (by omega)
    unfold SS_system_dd.apply
    rw [h1, except_ok_bind, if_neg (by omega : ¬ (0:Int) ≤ 0 - 1),
      except_pure_bind]
    simp only [if_pos rfl]
    rw [hup, except_error_bind]
    simp
  · intro f ii intg x y dat dat_int hy
    have hylen : (0 : Int) ≤ (y.length : Int) - 1 := by
      cases y with
      | nil => exact absurd rfl hy
      | cons a t => simp
    have h1 : vget y ((y.length : Int) - 1) =
        .ok (y.getD ((y.length : Int) - 1).toNat 0) :=
      vget_ok _ _ hylen (by omega)
    unfold SS_system_vd.apply
    rw [h1, except_ok_bind, if_neg (by omega : ¬ (0:Int) ≤ 0 - 1),
      except_pure_bind]
    simp only [if_pos rfl]
    rw [hup, except_error_bind]
    simp

/-- Witness for C9: a concrete `cmt = 0` call to `SS_system_dd::operator()`
reaches the out-of-bounds index `-1`. -/
theorem bolus_guard_indexing_witness :
    SS_system_dd.apply
      ⟨fun _ _ _ _ _ _ => [], 1, 0, fun _ _ _ _ _ _ _ => []⟩
      (fun _ _ _ _ => .ok ()) [1] [2] [3] [] = .error .oob :=
  bolus_guard_indexing.2.2.1 (fun _ _ _ _ _ _ => []) 1
    (fun _ _ _ _ _ _ _ => []) (fun _ _ _ _ => .ok ())
    [1] [2] [3] [] (by decide)

/-- C10: in the truncated-infusion branch of `SS_system_dd::operator()`
(nonzero rate at the dosing compartment, `ii > 0`), both integrator calls —
to time `amt/rate` and to time `ii - amt/rate` — receive the same real-data
vector `dat_ode = dat` minus its last element, with the original rates
intact; the zero-filled `rate_v` is never passed, so the second leg runs
with the original nonzero rates. -/
theorem SS_system_dd_truncated_infusion_legs
    (f : OdeF) (ii : ℚ) (cmt : Int) (intg : Integrator) (cm : CheckMti)
    (x y dat : List ℚ) (dat_int : List Int) (x1 p : List ℚ)
    (hd : dat ≠ [])
    (hc : 1 ≤ cmt) (hcu : (cmt - 1).toNat < dat.length)
    (hrate : dat.getD (cmt - 1).toNat 0 ≠ 0)
    (hii : 0 < ii)
    (hcm : cm (dat.getD (dat.length - 1) 0)
        (dat.getD (dat.length - 1) 0 / dat.getD (cmt - 1).toNat 0)
        ii "Steady State Event" = .ok ())
    (h1 : first (intg f x 0
        [dat.getD (dat.length - 1) 0 / dat.getD (cmt - 1).toNat 0]
        y dat.dropLast dat_int) = .ok x1)
    (h2 : first (intg f x1 0
        [ii - dat.getD (dat.length - 1) 0 / dat.getD (cmt - 1).toNat 0]
        y dat.dropLast dat_int) = .ok p)
    (hlen : x.length ≤ p.length) :
    SS_system_dd.apply ⟨f, ii, cmt, intg⟩ cm x y dat dat_int =
      .ok (List.zipWith (fun a b => a - b) x p) := by
  have hdlen : (0 : Int) ≤ (dat.length : Int) - 1 := by
    cases dat with
    | nil => exact absurd rfl hd
    | cons a t => simp
  have hidx : ((dat.length : Int) - 1).toNat = dat.length - 1 := by omega
  have hv1 : vget dat ((dat.length : Int) - 1) =
      .ok (dat.getD (dat.length - 1) 0) := by
    rw [vget_ok _ _ hdlen (by omega), hidx]
  have hv2 : vget dat (cmt - 1) = .ok (dat.getD (cmt - 1).toNat 0) :=
    vget_ok _ _ (by omega) hcu
  unfold SS_system_dd.apply
  rw [hv1, except_ok_bind, if_pos (by omega : (0:Int) ≤ cmt - 1), hv2,
    except_ok_bind]
  simp only [if_neg hrate, if_pos hii]
  rw [hcm, except_ok_bind, h1, except_ok_bind, h2, except_ok_bind,
    residualOf, if_pos hlen]

/-- Witness for C10 with an integrator that prepends its real-data argument
to the state, making the data vector passed on each leg observable. -/
theorem SS_system_dd_truncated_infusion_legs_witness :
    SS_system_dd.apply
      ⟨fun _ _ _ _ _ _ => [], 5, 1,
        fun _ x0 _ _ _ datArg _ => [datArg ++ x0]⟩
      (fun _ _ _ _ => .ok ()) [10] [] [2, 9] [] =
      .ok (List.zipWith (fun a b => a - b) [10] [2, 2, 10]) :=
  SS_system_dd_truncated_infusion_legs (fun _ _ _ _ _ _ => []) 5 1
    (fun _ x0 _ _ _ datArg _ => [datArg ++ x0]) (fun _ _ _ _ => .ok ())
    [10] [] [2, 9] [] [2, 10] [2, 2, 10]
    (by decide) (by decide) (by decide) (by decide) (by decide)
    rfl rfl rfl (by decide)

/-!
Embedding of the tolerance-configurable comparison
`torsten::test::test_val(Eigen::Matrix<T1,-1,-1>&, Eigen::Matrix<T2,-1,-1>&,
double rtol, double atol)` (test_util.hpp lines 71-88).  `value_of` is the
identity at `double`; `EXPECT_NEAR(a, b, tol)` passes iff `|a - b| ≤ tol`
and `EXPECT_EQ` compares for equality; a gtest call "passes" iff every
expectation in it passes.
-/

/-- One element comparison of the source `test_val` (lines 81-86): an
absolute comparison against `atol` when both magnitudes are below `1e-5`;
otherwise `EXPECT_NEAR` against `err = std::max(y1_i, y2_i) * rtol` — the
signed maximum of the two values, exactly as written in the source. -/
def test_val_elem (a b rtol atol : ℚ) : Bool :=
  if |a| < 1/100000 ∧ |b| < 1/100000 then |a - b| ≤ atol
  else |a - b| ≤ max a b * rtol

/-- The source `test_val(y1, y2, rtol, atol)` on two vectors of values:
`true` iff every expectation in the call passes (the shape checks and all
element comparisons). -/
def test_val (y1 y2 : List ℚ) (rtol atol : ℚ) : Bool :=
  (y1.length == y2.length) &&
    (List.zip y1 y2).all fun ab => test_val_elem ab.1 ab.2 rtol atol

/-- The comparison rule as claim C8 words it (spec §6 "configurable
absolute/relative tolerance"): absolute tolerance `atol` when both
magnitudes are below `1e-5`, otherwise `rtol` times the larger MAGNITUDE of
the two compared values. -/
def test_val_claimed (y1 y2 : List ℚ) (rtol atol : ℚ) : Bool :=
  (y1.length == y2.length) &&
    (List.zip y1 y2).all fun ab =>
      if |ab.1| < 1/100000 ∧ |ab.2| < 1/100000 then |ab.1 - ab.2| ≤ atol
      else |ab.1 - ab.2| ≤ max |ab.1| |ab.2| * rtol

/-- C8 (code bug): on the pair of equal negative values `y1 = y2 = [-1]`
with `rtol = 1e-8`, `atol = 1e-6`, the source `test_val` computes the signed
tolerance `max(-1, -1) * rtol = -1e-8 < 0` and its `EXPECT_NEAR` fails,
although the elements are identical; the magnitude-based rule the claim
(and the sibling `test_grad` at test_util.hpp line 508) uses accepts them. -/
theorem test_val_negative_equal_mismatch :
    test_val [-1] [-1] (1/100000000) (1/1000000) = false ∧
    test_val_claimed [-1] [-1] (1/100000000) (1/1000000) = true := by
  constructor <;> norm_num [test_val, test_val_elem, test_val_claimed]
